import Mathlib

/-!
# Verification of the pit-stop zone-activity analyzer

Shallow embedding of `src/analyzer.py` (class `PitStopAnalyzer`).  The
OpenCV / YOLO primitives (color masking, contour extraction, person
detection) are external collaborators; their *outputs* — contours with
areas and bounding rectangles, and per-frame person detection boxes —
are inputs of the embedded functions, exactly at the boundary where the
Python code consumes them.  All arithmetic the Python code performs on
those inputs (integer arithmetic, `//` floor division, `int(x * c)`
truncation of a nonnegative product, rational comparisons against the
`0.05` area fraction, durations `frames / fps`) is embedded over
`ℕ`/`ℤ`/`ℚ`.  `int(cw * 0.35)`, `int(ch * 0.5)`, `int(ch * 0.2)` on
nonnegative ints are embedded as the exact rational floors
`cw * 35 / 100`, `ch * 5 / 10`, `ch * 2 / 10`.
-/

namespace PitStop

/-- A car bounding rectangle as returned by `cv2.boundingRect`:
`(x, y, w, h)`, all nonnegative. -/
structure CarBox where
  x : ℕ
  y : ℕ
  w : ℕ
  h : ℕ
deriving DecidableEq, Repr

/-- A person detection box in `xyxy` form, as unpacked from
`box.xyxy[0]` and truncated with `int(...)` in `process`. -/
structure PersonBox where
  x1 : ℤ
  y1 : ℤ
  x2 : ℤ
  y2 : ℤ
deriving DecidableEq, Repr

/-- A zone rectangle `[x, y, w, h]` as stored in the `zones` dict of
`generate_zones`.  Coordinates are `ℤ` because e.g.
`cy - zh - pad_y` can be negative. -/
structure ZoneRect where
  x : ℤ
  y : ℤ
  w : ℤ
  h : ℤ
deriving DecidableEq, Repr

/-- A connected region ("blob"): the pair of data `find_car` reads off
a contour, namely `cv2.contourArea` and `cv2.boundingRect`. -/
structure Contour where
  area : ℚ
  rect : CarBox
deriving DecidableEq, Repr

/-- `PitStopAnalyzer.find_car`, from the point where the contour list
has been computed: if there are no contours return `None`; otherwise
take the contour of maximum area (Python's `max` keeps the first
maximal element); reject it when its area is below 5% of the frame
area (`self.width * self.height * 0.05`); otherwise return its
bounding rectangle. -/
def find_car (width height : ℕ) (contours : List Contour) : Option CarBox :=
  match contours with
  | [] => none
  | c :: rest =>
      let m := rest.foldl (fun best d => if d.area > best.area then d else best) c
      if m.area < (width : ℚ) * (height : ℚ) * 5 / 100 then none
      else some m.rect

/-- `PitStopAnalyzer.check_overlap`: the strict AABB intersection test
`px1 < zx2 and px2 > zx and py1 < zy2 and py2 > zy` where
`zx2 = zx + zw`, `zy2 = zy + zh`. -/
def check_overlap (p : PersonBox) (z : ZoneRect) : Bool :=
  decide (p.x1 < z.x + z.w ∧ p.x2 > z.x ∧ p.y1 < z.y + z.h ∧ p.y2 > z.y)

/-- `PitStopAnalyzer.generate_zones`: the six fixed zones derived from
the locked car box.  `center_x = cx + cw // 2`, `zw = int(cw * 0.35)`,
`zh = int(ch * 0.5)`, `pad_y = int(ch * 0.2)`. -/
def generate_zones (b : CarBox) : List (String × ZoneRect) :=
  let center_x : ℤ := (b.x + b.w / 2 : ℕ)
  let zw : ℤ := (b.w * 35 / 100 : ℕ)
  let zh : ℤ := (b.h * 5 / 10 : ℕ)
  let pad_y : ℤ := (b.h * 2 / 10 : ℕ)
  let cy : ℤ := (b.y : ℤ)
  let ch : ℤ := (b.h : ℤ)
  [ ("Outside_Front", ⟨center_x, cy - zh - pad_y, zw, zh⟩),
    ("Inside_Front", ⟨center_x, cy + ch + pad_y, zw, zh⟩),
    ("Outside_Rear", ⟨center_x - zw, cy - zh - pad_y, zw, zh⟩),
    ("Inside_Rear", ⟨center_x - zw, cy + ch + pad_y, zw, zh⟩),
    ("Fueling", ⟨center_x - zw / 2, cy + ch, zw, zh⟩),
    ("Driver_Change", ⟨center_x - zw / 2, cy - zh, zw, zh⟩) ]

/-- The per-zone statistics record of `zone_stats`:
`{'frames': 0, 'active': False, 'starts': []}`. -/
structure ZoneStats where
  frames : ℕ
  active : Bool
  starts : List ℚ
deriving DecidableEq, Repr

/-- The `zone_stats` initialisation performed inside `generate_zones`. -/
def initStats (zones : List (String × ZoneRect)) : List (String × ZoneStats) :=
  zones.map (fun z => (z.1, ⟨0, false, []⟩))

/-- Whether a zone is in `current_active_zones` this frame: some
detected person box passes `check_overlap` against it. -/
def busySample (persons : List PersonBox) (z : ZoneRect) : Bool :=
  persons.any (fun p => check_overlap p z)

/-- The per-zone, per-frame update of `zone_stats[z_name]` in
`process`: when active, increment `frames`, append the current time to
`starts` on an idle-to-active edge, and set `active`; otherwise just
clear `active`. -/
def updateZone (t : ℚ) (busy : Bool) (st : ZoneStats) : ZoneStats :=
  if busy then
    { frames := st.frames + 1
      active := true
      starts := if st.active then st.starts else st.starts ++ [t] }
  else
    { st with active := false }

/-- One analysis-phase frame over all zones: the Python loop
`for z_name, z_box in self.zones.items()` mutating
`self.zone_stats[z_name]`; the zone and stats dicts are keyed by the
same names, so each stats entry is updated with its zone's sample.
The current time is `frame_count / self.fps`. -/
def updateStats (fps : ℕ) (frame_count : ℕ) (persons : List PersonBox)
    (zones : List (String × ZoneRect)) (stats : List (String × ZoneStats)) :
    List (String × ZoneStats) :=
  stats.map (fun p =>
    match zones.lookup p.1 with
    | some z => (p.1, updateZone ((frame_count : ℚ) / (fps : ℚ)) (busySample persons z) p.2)
    | none => p)

/-- `dist = abs(x - last_car_pos[0]) + abs(y - last_car_pos[1])`. -/
def l1dist (b l : CarBox) : ℕ :=
  ((b.x : ℤ) - (l.x : ℤ)).natAbs + ((b.y : ℤ) - (l.y : ℤ)).natAbs

/-- The mutable state of one `process` run: the analyzer fields
`car_detected`, `zones`, `zone_stats`, `car_bbox` together with the
loop locals `stable_frames`, `last_car_pos`, `frame_count`. -/
structure AnalyzerState where
  car_detected : Bool
  zones : List (String × ZoneRect)
  zone_stats : List (String × ZoneStats)
  stable_frames : ℕ
  last_car_pos : Option CarBox
  car_bbox : Option CarBox
  frame_count : ℕ
deriving DecidableEq, Repr

/-- The state at the top of `process`. -/
def initState : AnalyzerState :=
  ⟨false, [], [], 0, none, none, 0⟩

/-- One frame's worth of externally supplied signal: what `find_car`
would return on this frame (consumed only in the pre-lock branch) and
the YOLO person boxes (consumed only in the analysis branch). -/
structure FrameInput where
  car : Option CarBox
  persons : List PersonBox
deriving DecidableEq, Repr

/-- One iteration of the `while True` loop of `process` (the drawing
and video-writing side effects carry no analysis state).  Pre-lock:
if a car box is found and a previous position exists, increment
`stable_frames` when `dist < 5`, else reset it to `0`; store the box
as `last_car_pos`; when `stable_frames > 15`, generate the zones from
`last_car_pos`, set `car_detected` and `car_bbox`.  Post-lock: update
every zone's stats from the person boxes.  `frame_count` increments
every frame. -/
def step (fps : ℕ) (s : AnalyzerState) (inp : FrameInput) : AnalyzerState :=
  if s.car_detected then
    { s with
      zone_stats := updateStats fps s.frame_count inp.persons s.zones s.zone_stats
      frame_count := s.frame_count + 1 }
  else
    match inp.car with
    | none => { s with frame_count := s.frame_count + 1 }
    | some b =>
        let stable : ℕ :=
          match s.last_car_pos with
          | none => s.stable_frames
          | some l => if l1dist b l < 5 then s.stable_frames + 1 else 0
        if stable > 15 then
          { s with
            car_detected := true
            zones := generate_zones b
            zone_stats := initStats (generate_zones b)
            stable_frames := stable
            last_car_pos := some b
            car_bbox := some b
            frame_count := s.frame_count + 1 }
        else
          { s with
            stable_frames := stable
            last_car_pos := some b
            frame_count := s.frame_count + 1 }

/-- A whole `process` run over a list of frame inputs. -/
def run (fps : ℕ) (ins : List FrameInput) : AnalyzerState :=
  ins.foldl (step fps) initState

/-- The floor of a rational, in kernel-reducible form
(`Rat.floor_def`: this equals `⌊q⌋`). -/
def ratFloor (q : ℚ) : ℤ :=
  q.num / q.den

/-- Python's `round(q, 2)` on the (exactly representable) rationals
appearing in this development: round `q * 100` to the nearest integer
and divide back.  (Ties cannot occur at any input used below.) -/
def round2 (q : ℚ) : ℚ :=
  ((ratFloor (q * 100 + 1 / 2) : ℤ) : ℚ) / 100

/-- A row of the final report `DataFrame`. -/
structure ReportEntry where
  task : String
  duration : ℚ
  first : ℚ
deriving DecidableEq, Repr

/-- The report-compilation loop at the end of `process`: for each zone,
`duration = stats['frames'] / self.fps`; append a row exactly when
`duration > 1.0`, with the duration and the first start time rounded
to two decimals (`0` when `starts` is empty). -/
def compileReport (fps : ℕ) (stats : List (String × ZoneStats)) : List ReportEntry :=
  stats.filterMap (fun p =>
    let duration : ℚ := (p.2.frames : ℚ) / (fps : ℚ)
    if duration > 1 then
      some ⟨p.1, round2 duration,
            match p.2.starts.head? with
            | some t => round2 t
            | none => 0⟩
    else none)

/-- Feeding one zone a bare busy/idle sample sequence: the fold of the
per-zone update of `process` over the samples, timing frame `i` at
`i / fps`, starting from a freshly initialised stats record. -/
def zoneRunSamples (fps : ℕ) (samples : List Bool) : ZoneStats :=
  (samples.foldl (fun (p : ZoneStats × ℕ) b => (updateZone ((p.2 : ℚ) / (fps : ℚ)) b p.1, p.2 + 1))
    ((⟨0, false, []⟩ : ZoneStats), 0)).1

/-- Feeding one zone the per-frame person-box lists: per frame the
zone's sample is `busySample`, then the per-zone update of `process`
runs, timing frame `i` at `i / fps`. -/
def zoneRunBoxes (fps : ℕ) (z : ZoneRect) (frames : List (List PersonBox)) : ZoneStats :=
  (frames.foldl
    (fun (p : ZoneStats × ℕ) ps => (updateZone ((p.2 : ℚ) / (fps : ℚ)) (busySample ps z) p.1, p.2 + 1))
    ((⟨0, false, []⟩ : ZoneStats), 0)).1

/-- A zone rectangle lying entirely outside the `width × height` frame
(fully beyond the left, right, top or bottom edge). -/
def entirelyOutside (width height : ℕ) (z : ZoneRect) : Prop :=
  z.x + z.w ≤ 0 ∨ (width : ℤ) ≤ z.x ∨ z.y + z.h ≤ 0 ∨ (height : ℤ) ≤ z.y

/-- A person box lying within the `width × height` frame, as YOLO boxes
on a frame of that size are. -/
def inFrameBox (width height : ℕ) (p : PersonBox) : Prop :=
  0 ≤ p.x1 ∧ p.x2 ≤ (width : ℤ) ∧ 0 ≤ p.y1 ∧ p.y2 ≤ (height : ℤ)

instance (width height : ℕ) (z : ZoneRect) : Decidable (entirelyOutside width height z) := by
  unfold entirelyOutside; infer_instance

instance (width height : ℕ) (p : PersonBox) : Decidable (inFrameBox width height p) := by
  unfold inFrameBox; infer_instance

/-- Disjointness of the closed rectangles `[x1, x2] × [y1, y2]` and
`[zx, zx + zw] × [zy, zy + zh]`: they are separated along some axis. -/
def rectDisjoint (p : PersonBox) (z : ZoneRect) : Prop :=
  p.x2 < z.x ∨ z.x + z.w < p.x1 ∨ p.y2 < z.y ∨ z.y + z.h < p.y1

/-- The strict AABB intersection test between two zone rectangles —
`check_overlap` with the first rectangle written in corner form. -/
def zonesIntersect (a b : ZoneRect) : Prop :=
  a.x < b.x + b.w ∧ a.x + a.w > b.x ∧ a.y < b.y + b.h ∧ a.y + a.h > b.y

/-- Modelled from the spec: the squared Euclidean displacement of the
candidate pose's center `(x + w/2, y + h/2)` from the previous pose's
center, the quantity §4.2 says the Stability Gate compares against the
pixel threshold.  (Squared, to stay in `ℚ`: `d < 5 ↔ d² < 25`.) -/
def specCenterDispSq (b l : CarBox) : ℚ :=
  ((b.x : ℚ) + (b.w : ℚ) / 2 - ((l.x : ℚ) + (l.w : ℚ) / 2)) ^ 2 +
    ((b.y : ℚ) + (b.h : ℚ) / 2 - ((l.y : ℚ) + (l.h : ℚ) / 2)) ^ 2

/-- The car-observation component of an input stream. -/
def carObs (ins : List FrameInput) : List (Option CarBox) :=
  ins.map (·.car)

/-- Scan state for the calm-run analysis of an observation stream:
`(last found box, length of the current disturbance-free suffix,
maximum such length over all prefixes)`.  A frame is *disturbing* when
a box is found, a previous found box exists, and their `l1dist` is at
least the 5-pixel movement threshold; every other frame (no detection,
first detection, or a close detection) extends the calm run. -/
def calmStep (acc : Option CarBox × ℕ × ℕ) (o : Option CarBox) :
    Option CarBox × ℕ × ℕ :=
  match o, acc.1 with
  | some b, some l =>
      if l1dist b l < 5 then (some b, acc.2.1 + 1, max acc.2.2 (acc.2.1 + 1))
      else (some b, 0, acc.2.2)
  | some b, none => (some b, acc.2.1 + 1, max acc.2.2 (acc.2.1 + 1))
  | none, _ => (acc.1, acc.2.1 + 1, max acc.2.2 (acc.2.1 + 1))

/-- The calm-run scan of a whole observation stream. -/
def calmScan (obs : List (Option CarBox)) : Option CarBox × ℕ × ℕ :=
  obs.foldl calmStep (none, 0, 0)

/-- The longest disturbance-free run of consecutive frames in the
stream: the formalisation of "the displacement stays below the
movement threshold for (at most) this many consecutive frames". -/
def maxCalm (obs : List (Option CarBox)) : ℕ :=
  (calmScan obs).2.2

/-- The concrete no-premature-lock scenario: 15 frames of a car found
at a fixed position (the first sets `last_car_pos`, the next 14 are
consecutive stable frames) followed by one disturbed frame (the box
jumps 100 px). -/
def demoIns : List FrameInput :=
  List.replicate 15 ⟨some ⟨100, 100, 50, 20⟩, []⟩ ++ [⟨some ⟨200, 100, 50, 20⟩, []⟩]

/-- The double-counting property of the generated zone layout for a
locked car box `b`: `Driver_Change` passes the AABB intersection test
against `Outside_Front`, `Fueling` against `Inside_Front`, some single
person box overlaps both `Driver_Change` and `Outside_Front` at once
(so one detection marks two zones busy in the same frame, and each
busy zone's `frames` counter is incremented); moreover when the zone
width is at least 2 (`cw ≥ 6`), `Driver_Change` also intersects
`Outside_Rear` and `Fueling` also intersects `Inside_Rear`. -/
def doubleCountsAt (b : CarBox) : Prop :=
  ∃ zDC zOF zIF zF : ZoneRect,
    (generate_zones b).lookup "Driver_Change" = some zDC ∧
    (generate_zones b).lookup "Outside_Front" = some zOF ∧
    (generate_zones b).lookup "Inside_Front" = some zIF ∧
    (generate_zones b).lookup "Fueling" = some zF ∧
    zonesIntersect zDC zOF ∧
    zonesIntersect zF zIF ∧
    (∃ p : PersonBox, busySample [p] zDC = true ∧ busySample [p] zOF = true) ∧
    (∀ t st, (updateZone t true st).frames = st.frames + 1) ∧
    (6 ≤ b.w →
      ∃ zOR zIR : ZoneRect,
        (generate_zones b).lookup "Outside_Rear" = some zOR ∧
        (generate_zones b).lookup "Inside_Rear" = some zIR ∧
        zonesIntersect zDC zOR ∧ zonesIntersect zF zIR)

/-! ## Theorems -/

set_option maxRecDepth 10000 in
/-- C1 (counterexample).  The claim asserts the per-zone state machine
never flickers Active to Idle and back on an idle gap shorter than the
patience window (0.5 s = 15 frames at fps 30), and logs one event
spanning first to last busy frame.  The code has no patience window:
on the sequence of 60 busy, 10 idle, 5 busy, 20 idle frames, the zone
is `active` after the 60 busy frames, already inactive one idle frame
later (an idle gap of 10 < 15 frames), and active again during the 5
busy frames, recording a second activation start — the machine
flickers Active→Idle→Active inside the patience window. -/
theorem c1_flicker_counterexample :
    (zoneRunSamples 30 (List.replicate 60 true)).active = true ∧
    (zoneRunSamples 30 (List.replicate 60 true ++ List.replicate 10 false)).active = false ∧
    (zoneRunSamples 30 (List.replicate 60 true ++ List.replicate 10 false ++
        List.replicate 5 true ++ List.replicate 20 false)).starts.length = 2 := by
  refine ⟨?_, ?_, ?_⟩ <;> with_unfolding_all rfl

set_option maxRecDepth 10000 in
/-- C1 (amended).  What the code actually does on the two debounce
scenarios at fps 30: on 60 busy, 10 idle, 5 busy, 20 idle frames it
accumulates 65 busy frames and reports exactly one row for the zone,
whose duration is the busy-frame total 65/30 s (reported rounded to
2.17), not the first-to-last-busy span, with first activity at 0; two
activation starts are recorded because the tracker goes idle
immediately on each idle frame; and a run of only 20 busy frames
reports no row at all, because 20/30 s is at most the hard-coded
1.0 s minimum. -/
theorem c1_amended_report :
    compileReport 30 [("FL_Tire", zoneRunSamples 30 (List.replicate 60 true ++
        List.replicate 10 false ++ List.replicate 5 true ++ List.replicate 20 false))] =
      [⟨"FL_Tire", 217 / 100, 0⟩] ∧
    (zoneRunSamples 30 (List.replicate 60 true ++ List.replicate 10 false ++
        List.replicate 5 true ++ List.replicate 20 false)).frames = 65 ∧
    (zoneRunSamples 30 (List.replicate 60 true ++ List.replicate 10 false ++
        List.replicate 5 true ++ List.replicate 20 false)).starts = [0, 7 / 3] ∧
    compileReport 30 [("FL_Tire", zoneRunSamples 30 (List.replicate 20 true))] = [] := by
  refine ⟨?_, ?_, ?_, ?_⟩ <;> with_unfolding_all rfl

/-- C2 (counterexample).  The claim asserts zone rectangles are
clamped to frame bounds and a zero-area zone samples false on every
frame.  Neither holds: for a locked car box at `(0, 0, 100, 50)` the
generated `Outside_Front` rectangle keeps the negative y-coordinate
−35 (no clamping is performed, whatever the frame size); and for the
degenerate car box `(10, 10, 2, 2)` the `Fueling` zone has width 0 —
zero area — yet `check_overlap` returns true for a person box
straddling it. -/
theorem c2_unclamped_counterexample :
    ((generate_zones ⟨0, 0, 100, 50⟩).lookup "Outside_Front" = some ⟨50, -35, 35, 25⟩ ∧
      (-35 : ℤ) < 0) ∧
    ((generate_zones ⟨10, 10, 2, 2⟩).lookup "Fueling" = some ⟨11, 12, 0, 1⟩ ∧
      (0 : ℤ) * 1 = 0 ∧
      check_overlap ⟨10, 12, 15, 13⟩ ⟨11, 12, 0, 1⟩ = true) := by
  decide

/-- C9 (counterexample).  The claim asserts every report entry's
duration strictly exceeds the minimum-duration filter (1.0 s in the
code).  The report stores `round(duration, 2)`: at fps 1000 a zone
with 1001 busy frames has true duration 1.001 s, passes the
`duration > 1.0` filter, and is emitted with rounded duration exactly
1.0 — not exceeding the minimum. -/
theorem c9_rounded_duration_counterexample :
    compileReport 1000 [("Z", ⟨1001, false, []⟩)] = [⟨"Z", 1, 0⟩] ∧ ¬ (1 : ℚ) > 1 := by
  exact ⟨by with_unfolding_all rfl, by norm_num⟩

/-- C5 (confirmed).  On a pre-lock frame where the localizer returns
no car box, the whole gate state is unchanged apart from the frame
counter: `stable_frames` is not reset and `last_car_pos` is kept, so
the counter carries forward across dropped detections. -/
theorem c5_notfound_keeps_state (fps : ℕ) (s : AnalyzerState) (ps : List PersonBox)
    (h : s.car_detected = false) :
    step fps s ⟨none, ps⟩ = { s with frame_count := s.frame_count + 1 } := by
  simp [step, h]

/-- C5 witness: a concrete pre-lock state with counter 7 and a stored
pose survives a NotFound frame untouched. -/
theorem c5_notfound_keeps_state_witness :
    step 30 ⟨false, [], [], 7, some ⟨1, 2, 3, 4⟩, none, 5⟩ ⟨none, []⟩ =
      ⟨false, [], [], 7, some ⟨1, 2, 3, 4⟩, none, 6⟩ :=
  c5_notfound_keeps_state 30 ⟨false, [], [], 7, some ⟨1, 2, 3, 4⟩, none, 5⟩ [] rfl

/-- C7 (confirmed).  The per-frame occupancy sample of a zone is true
iff some person box passes the strict AABB test
`px1 < zx2 ∧ px2 > zx ∧ py1 < zy2 ∧ py2 > zy` against it, and the test
is false for every pair of disjoint rectangles. -/
theorem c7_overlap_iff (ps : List PersonBox) (z : ZoneRect) :
    (busySample ps z = true ↔
      ∃ p ∈ ps, p.x1 < z.x + z.w ∧ p.x2 > z.x ∧ p.y1 < z.y + z.h ∧ p.y2 > z.y) ∧
    ∀ p : PersonBox, rectDisjoint p z → check_overlap p z = false := by
  constructor
  · simp [busySample, check_overlap]
  · intro p hd
    simp only [rectDisjoint] at hd
    simp only [check_overlap, decide_eq_false_iff_not]
    rintro ⟨h1, h2, h3, h4⟩
    omega

/-- C7 witness: a unit box far from a zone is disjoint from it and the
overlap test returns false. -/
theorem c7_overlap_iff_witness :
    check_overlap ⟨0, 0, 1, 1⟩ ⟨5, 5, 2, 2⟩ = false :=
  (c7_overlap_iff [⟨0, 0, 1, 1⟩] ⟨5, 5, 2, 2⟩).2 ⟨0, 0, 1, 1⟩ (Or.inl (by decide))

/-- C4 (counterexample).  The claim says the gate compares the
Euclidean displacement of the pose *centers* against the threshold and
increments when it is below.  With previous box `(0, 0, 10, 10)` and
new box `(3, 3, 10, 10)` the squared Euclidean center displacement is
18 < 5², so the claim requires the counter (here 7) to be incremented
to 8 — but the code computes the L1 corner distance 3 + 3 = 6 ≥ 5 and
resets the counter to 0. -/
theorem c4_euclidean_counterexample :
    specCenterDispSq ⟨3, 3, 10, 10⟩ ⟨0, 0, 10, 10⟩ < 5 ^ 2 ∧
    (step 30 ⟨false, [], [], 7, some ⟨0, 0, 10, 10⟩, none, 0⟩
        ⟨some ⟨3, 3, 10, 10⟩, []⟩).stable_frames = 0 := by
  constructor
  · show ((3 : ℚ) + 10 / 2 - (0 + 10 / 2)) ^ 2 + ((3 : ℚ) + 10 / 2 - (0 + 10 / 2)) ^ 2 < 5 ^ 2
    norm_num
  · with_unfolding_all rfl

/-- C4 (amended).  On a pre-lock frame where a pose is found and a
previous pose exists, the gate compares the *L1 (Manhattan) distance
of the detections' top-left corners* against the 5-pixel threshold:
below it, the stable counter is incremented by one, otherwise it is
reset to zero. -/
theorem c4_amended_l1_corner (fps : ℕ) (s : AnalyzerState) (b l : CarBox)
    (ps : List PersonBox) (hd : s.car_detected = false) (hl : s.last_car_pos = some l) :
    (step fps s ⟨some b, ps⟩).stable_frames =
      if l1dist b l < 5 then s.stable_frames + 1 else 0 := by
  simp only [step, hd, hl, Bool.false_eq_true, if_false]
  by_cases h5 : l1dist b l < 5 <;> simp only [h5, if_true, if_false] <;> split <;> rfl

/-- C4 amended witness: from counter 7, a detection whose corner moved
by L1 distance 6 resets the counter to 0. -/
theorem c4_amended_l1_corner_witness :
    (step 30 ⟨false, [], [], 7, some ⟨0, 0, 10, 10⟩, none, 0⟩
        ⟨some ⟨3, 3, 10, 10⟩, []⟩).stable_frames = 0 :=
  (c4_amended_l1_corner 30 ⟨false, [], [], 7, some ⟨0, 0, 10, 10⟩, none, 0⟩
    ⟨3, 3, 10, 10⟩ ⟨0, 0, 10, 10⟩ [] rfl rfl).trans (by with_unfolding_all rfl)

/-- Helper for C6: a locked step only advances the per-zone stats and
the frame counter. -/
theorem step_locked_eq (fps : ℕ) (s : AnalyzerState) (i : FrameInput)
    (h : s.car_detected = true) :
    step fps s i = { s with
      zone_stats := updateStats fps s.frame_count i.persons s.zones s.zone_stats
      frame_count := s.frame_count + 1 } := by
  simp [step, h]

/-- C6 (confirmed).  Once the locked flag is set it is never cleared,
and the zone set and locked car box are never reassigned, whatever
later frames arrive: processing any further input list from a locked
state preserves `car_detected`, `zones` and `car_bbox`. -/
theorem c6_lock_irreversible (fps : ℕ) (s : AnalyzerState) (ins : List FrameInput)
    (h : s.car_detected = true) :
    (ins.foldl (step fps) s).car_detected = true ∧
    (ins.foldl (step fps) s).zones = s.zones ∧
    (ins.foldl (step fps) s).car_bbox = s.car_bbox := by
  induction ins generalizing s with
  | nil => exact ⟨h, rfl, rfl⟩
  | cons a rest ih =>
      rw [List.foldl_cons]
      have h2 := step_locked_eq fps s a h
      obtain ⟨d, z, c⟩ := ih (step fps s a) (by rw [h2]; exact h)
      exact ⟨d, by rw [z, h2], by rw [c, h2]⟩

/-- C6 witness: a concrete locked state keeps its flag, zone list and
car box across two further frames (one with a person box present). -/
theorem c6_lock_irreversible_witness :
    (([⟨none, [⟨0, 0, 1, 1⟩]⟩, ⟨some ⟨9, 9, 9, 9⟩, []⟩] : List FrameInput).foldl (step 30)
        ⟨true, [("Z", ⟨0, 0, 5, 5⟩)], [("Z", ⟨0, false, []⟩)], 16, some ⟨1, 1, 2, 2⟩,
          some ⟨1, 1, 2, 2⟩, 20⟩).car_detected = true ∧
    (([⟨none, [⟨0, 0, 1, 1⟩]⟩, ⟨some ⟨9, 9, 9, 9⟩, []⟩] : List FrameInput).foldl (step 30)
        ⟨true, [("Z", ⟨0, 0, 5, 5⟩)], [("Z", ⟨0, false, []⟩)], 16, some ⟨1, 1, 2, 2⟩,
          some ⟨1, 1, 2, 2⟩, 20⟩).zones = [("Z", ⟨0, 0, 5, 5⟩)] ∧
    (([⟨none, [⟨0, 0, 1, 1⟩]⟩, ⟨some ⟨9, 9, 9, 9⟩, []⟩] : List FrameInput).foldl (step 30)
        ⟨true, [("Z", ⟨0, 0, 5, 5⟩)], [("Z", ⟨0, false, []⟩)], 16, some ⟨1, 1, 2, 2⟩,
          some ⟨1, 1, 2, 2⟩, 20⟩).car_bbox = some ⟨1, 1, 2, 2⟩ :=
  c6_lock_irreversible 30
    ⟨true, [("Z", ⟨0, 0, 5, 5⟩)], [("Z", ⟨0, false, []⟩)], 16, some ⟨1, 1, 2, 2⟩,
      some ⟨1, 1, 2, 2⟩, 20⟩
    [⟨none, [⟨0, 0, 1, 1⟩]⟩, ⟨some ⟨9, 9, 9, 9⟩, []⟩] rfl

/-- Helper for C2 (amended): a zone entirely outside the frame never
passes the overlap test against a box within the frame. -/
theorem outside_no_overlap (width height : ℕ) (z : ZoneRect)
    (hz : entirelyOutside width height z) (p : PersonBox)
    (hp : inFrameBox width height p) : check_overlap p z = false := by
  simp only [entirelyOutside] at hz
  simp only [inFrameBox] at hp
  simp only [check_overlap, decide_eq_false_iff_not]
  rintro ⟨h1, h2, h3, h4⟩
  obtain ⟨k1, k2, k3, k4⟩ := hp
  rcases hz with h | h | h | h <;> omega

/-- Helper for C2 (amended): the per-zone fold over in-frame person
boxes leaves a fresh stats record of an entirely-outside zone
untouched, for any starting frame index. -/
theorem zoneRunBoxes_outside_aux (width height fps : ℕ) (z : ZoneRect)
    (hz : entirelyOutside width height z) :
    ∀ (frames : List (List PersonBox)) (i : ℕ),
      (∀ ps ∈ frames, ∀ p ∈ ps, inFrameBox width height p) →
      (frames.foldl
        (fun (p : ZoneStats × ℕ) ps =>
          (updateZone ((p.2 : ℚ) / (fps : ℚ)) (busySample ps z) p.1, p.2 + 1))
        ((⟨0, false, []⟩ : ZoneStats), i)).1 = ⟨0, false, []⟩ := by
  intro frames
  induction frames with
  | nil => intro i _; rfl
  | cons ps rest ih =>
      intro i hin
      have hb : busySample ps z = false := by
        rw [busySample]
        rw [List.any_eq_false]
        intro p hp
        simp only [Bool.not_eq_true]
        exact outside_no_overlap width height z hz p (hin ps (List.mem_cons_self ps rest) p hp)
      rw [List.foldl_cons, hb]
      exact ih (i + 1) (fun qs hqs q hq => hin qs (List.mem_cons_of_mem ps hqs) q hq)

/-- C2 (amended).  Zone rectangles are *not* clamped to frame bounds
(see the counterexample), and a zero-area zone can sample true; what
does hold: the overlap test is a total Boolean function (it cannot
raise), and a zone lying entirely outside the frame samples false on
every frame against in-frame person boxes, accumulates no busy frames
and no starts, and contributes no row to the final report. -/
theorem c2_amended_outside_safe (width height fps : ℕ) (z : ZoneRect) (name : String)
    (frames : List (List PersonBox)) (hz : entirelyOutside width height z)
    (hin : ∀ ps ∈ frames, ∀ p ∈ ps, inFrameBox width height p) :
    (∀ p : PersonBox, inFrameBox width height p → check_overlap p z = false) ∧
    zoneRunBoxes fps z frames = ⟨0, false, []⟩ ∧
    compileReport fps [(name, zoneRunBoxes fps z frames)] = [] := by
  have hrun : zoneRunBoxes fps z frames = ⟨0, false, []⟩ :=
    zoneRunBoxes_outside_aux width height fps z hz frames 0 hin
  refine ⟨fun p hp => outside_no_overlap width height z hz p hp, hrun, ?_⟩
  rw [hrun]
  simp only [compileReport, List.filterMap]
  rw [if_neg]
  simp only [Nat.cast_zero, zero_div]
  norm_num

/-- C2 amended witness: a zone fully above-left of a 100×100 frame,
fed two frames of in-frame person boxes, keeps empty stats and
produces an empty report. -/
theorem c2_amended_outside_safe_witness :
    zoneRunBoxes 30 ⟨-50, -50, 20, 20⟩ [[⟨0, 0, 10, 10⟩], []] = ⟨0, false, []⟩ ∧
    compileReport 30 [("Z", zoneRunBoxes 30 ⟨-50, -50, 20, 20⟩ [[⟨0, 0, 10, 10⟩], []])] = [] :=
  ⟨(c2_amended_outside_safe 100 100 30 ⟨-50, -50, 20, 20⟩ "Z" [[⟨0, 0, 10, 10⟩], []]
      (by decide) (by decide)).2.1,
   (c2_amended_outside_safe 100 100 30 ⟨-50, -50, 20, 20⟩ "Z" [[⟨0, 0, 10, 10⟩], []]
      (by decide) (by decide)).2.2⟩

/-- Helper for C8: the running maximum kept by `find_car` is one of
the contours. -/
theorem maxContour_mem : ∀ (rest : List Contour) (c : Contour),
    rest.foldl (fun best d => if d.area > best.area then d else best) c ∈ c :: rest := by
  intro rest
  induction rest with
  | nil => intro c; exact List.mem_singleton.mpr rfl
  | cons d rest ih =>
      intro c
      rw [List.foldl_cons]
      by_cases hd : d.area > c.area
      · rw [if_pos hd]
        have h := ih d
        simp only [List.mem_cons] at h ⊢
        tauto
      · rw [if_neg hd]
        have h := ih c
        simp only [List.mem_cons] at h ⊢
        tauto

/-- Helper for C8: every contour's area is at most the running
maximum's area. -/
theorem maxContour_le : ∀ (rest : List Contour) (c x : Contour), x ∈ c :: rest →
    x.area ≤ (rest.foldl (fun best d => if d.area > best.area then d else best) c).area := by
  intro rest
  induction rest with
  | nil =>
      intro c x hx
      rw [List.mem_singleton] at hx
      rw [List.foldl_nil, hx]
  | cons d rest ih =>
      intro c x hx
      rw [List.foldl_cons]
      have hcc : c.area ≤ (if d.area > c.area then d else c).area := by
        by_cases hd : d.area > c.area
        · rw [if_pos hd]; exact le_of_lt hd
        · rw [if_neg hd]
      have hdc : d.area ≤ (if d.area > c.area then d else c).area := by
        by_cases hd : d.area > c.area
        · rw [if_pos hd]
        · rw [if_neg hd]; exact le_of_not_lt hd
      have htop := ih (if d.area > c.area then d else c) (if d.area > c.area then d else c)
        (List.mem_cons_self _ _)
      rcases List.mem_cons.mp hx with rfl | hx2
      · exact le_trans hcc htop
      rcases List.mem_cons.mp hx2 with rfl | hx3
      · exact le_trans hdc htop
      · exact ih _ x (List.mem_cons_of_mem _ hx3)

/-- C8 (confirmed).  `find_car` returns `None` exactly when the
contour list is empty or the maximum-area contour's area is below 5%
of the total frame area, and otherwise returns the bounding rectangle
of a maximum-area contour whose area is not below the threshold —
`None` is an ordinary return value, not an exception. -/
theorem c8_find_car_spec (width height : ℕ) (cs : List Contour) :
    (find_car width height cs = none ↔
      cs = [] ∨ ∃ m ∈ cs, (∀ c ∈ cs, c.area ≤ m.area) ∧
        m.area < (width : ℚ) * (height : ℚ) * 5 / 100) ∧
    (∀ r, find_car width height cs = some r →
      ∃ m ∈ cs, (∀ c ∈ cs, c.area ≤ m.area) ∧
        ¬ m.area < (width : ℚ) * (height : ℚ) * 5 / 100 ∧ r = m.rect) := by
  cases cs with
  | nil =>
      constructor
      · simp [find_car]
      · intro r hr
        simp [find_car] at hr
  | cons c rest =>
      have hmem := maxContour_mem rest c
      have hle := maxContour_le rest c
      by_cases hth :
          (rest.foldl (fun best d => if d.area > best.area then d else best) c).area <
            (width : ℚ) * (height : ℚ) * 5 / 100
      · have hfc : find_car width height (c :: rest) = none := by
          rw [find_car]
          simp only [if_pos hth]
        constructor
        · rw [hfc]
          refine ⟨fun _ => Or.inr ⟨_, hmem, hle, hth⟩, fun _ => rfl⟩
        · intro r hr
          rw [hfc] at hr
          exact absurd hr (by simp)
      · have hfc : find_car width height (c :: rest) =
            some (rest.foldl (fun best d => if d.area > best.area then d else best) c).rect := by
          rw [find_car]
          simp only [if_neg hth]
        constructor
        · rw [hfc]
          constructor
          · intro h
            exact absurd h (by simp)
          · rintro (h | ⟨m', hm', hle', hth'⟩)
            · exact absurd h (by simp)
            · exact absurd (lt_of_le_of_lt (hle' _ hmem) hth') hth
        · intro r hr
          rw [hfc] at hr
          exact ⟨_, hmem, hle, hth, (Option.some.inj hr).symm⟩

/-- C8 witness: two contours in a 10×10 frame (threshold 5): the
larger one, of area 50, is selected and its bounding rectangle
returned. -/
theorem c8_find_car_spec_witness :
    ∃ m ∈ [(⟨10, ⟨0, 0, 5, 5⟩⟩ : Contour), ⟨50, ⟨1, 1, 7, 7⟩⟩],
      (∀ c ∈ [(⟨10, ⟨0, 0, 5, 5⟩⟩ : Contour), ⟨50, ⟨1, 1, 7, 7⟩⟩], c.area ≤ m.area) ∧
      ¬ m.area < (10 : ℚ) * (10 : ℚ) * 5 / 100 ∧ (⟨1, 1, 7, 7⟩ : CarBox) = m.rect :=
  (c8_find_car_spec 10 10 [⟨10, ⟨0, 0, 5, 5⟩⟩, ⟨50, ⟨1, 1, 7, 7⟩⟩]).2 ⟨1, 1, 7, 7⟩
    (by with_unfolding_all rfl)

/-- Helper for C9: `ratFloor` is the floor. -/
theorem ratFloor_eq_floor (q : ℚ) : ratFloor q = ⌊q⌋ := by
  rw [ratFloor, Rat.floor_def]

/-- Helper for C9: a duration strictly above 1 rounds to at least 1. -/
theorem one_le_round2 (q : ℚ) (h : 1 < q) : 1 ≤ round2 q := by
  rw [round2, ratFloor_eq_floor]
  rw [le_div_iff₀ (by norm_num : (0 : ℚ) < 100), one_mul]
  have h100 : (100 : ℤ) ≤ ⌊q * 100 + 1 / 2⌋ := by
    rw [Int.le_floor]
    push_cast
    linarith
  exact_mod_cast h100

/-- C9 (amended).  Every row of the final report comes from a zone
whose accumulated busy duration `frames / fps` strictly exceeds the
hard-coded 1.0 s minimum (so the underlying duration is strictly
positive), and the reported duration — that duration rounded to two
decimals — is at least 1.0 (it can equal 1.0 exactly, see the
counterexample, so it need not strictly exceed the minimum); a zone
whose accumulated duration is at most 1.0 s produces no row at all. -/
theorem c9_amended_min_duration (fps : ℕ) (stats : List (String × ZoneStats)) :
    (∀ e ∈ compileReport fps stats,
      ∃ st : ZoneStats, (e.task, st) ∈ stats ∧
        1 < (st.frames : ℚ) / (fps : ℚ) ∧ 0 < (st.frames : ℚ) / (fps : ℚ) ∧
        e.duration = round2 ((st.frames : ℚ) / (fps : ℚ)) ∧ 1 ≤ e.duration) ∧
    ((stats.map Prod.fst).Nodup →
      ∀ name st, (name, st) ∈ stats → (st.frames : ℚ) / (fps : ℚ) ≤ 1 →
        ∀ e ∈ compileReport fps stats, e.task ≠ name) := by
  constructor
  · intro e he
    simp only [compileReport, List.mem_filterMap] at he
    obtain ⟨p, hp, hf⟩ := he
    by_cases hdur : (p.2.frames : ℚ) / (fps : ℚ) > 1
    · rw [if_pos hdur] at hf
      obtain rfl := (Option.some.inj hf).symm
      exact ⟨p.2, by simpa using hp, hdur, lt_trans zero_lt_one hdur, rfl,
        one_le_round2 _ hdur⟩
    · rw [if_neg hdur] at hf
      exact absurd hf (by simp)
  · intro hnd name st hmem hle e he
    simp only [compileReport, List.mem_filterMap] at he
    obtain ⟨p, hp, hf⟩ := he
    by_cases hdur : (p.2.frames : ℚ) / (fps : ℚ) > 1
    · rw [if_pos hdur] at hf
      obtain rfl := (Option.some.inj hf).symm
      intro hname
      have hpq : p = (name, st) := by
        have := List.inj_on_of_nodup_map hnd hp hmem
        exact this (by simpa using hname)
      rw [hpq] at hdur
      exact absurd hdur (not_lt.mpr hle)
    · rw [if_neg hdur] at hf
      exact absurd hf (by simp)

/-- C9 amended witness: at fps 30, a zone with 40 busy frames and
first start at t = 2 yields the single row with rounded duration
1.33 ≥ 1, and a zone with 20 busy frames (duration 2/3 ≤ 1)
contributes no row. -/
theorem c9_amended_min_duration_witness :
    (∃ st : ZoneStats,
      ("A", st) ∈ [("A", (⟨40, true, [2]⟩ : ZoneStats)), ("B", ⟨20, false, []⟩)] ∧
      1 < (st.frames : ℚ) / (30 : ℚ) ∧ 0 < (st.frames : ℚ) / (30 : ℚ) ∧
      ((⟨"A", 133 / 100, 2⟩ : ReportEntry).duration = round2 ((st.frames : ℚ) / (30 : ℚ))) ∧
      1 ≤ (⟨"A", 133 / 100, 2⟩ : ReportEntry).duration) ∧
    (⟨"A", 133 / 100, 2⟩ : ReportEntry).task ≠ "B" :=
  ⟨(c9_amended_min_duration 30 [("A", ⟨40, true, [2]⟩), ("B", ⟨20, false, []⟩)]).1
      ⟨"A", 133 / 100, 2⟩ (by with_unfolding_all decide),
   (c9_amended_min_duration 30 [("A", ⟨40, true, [2]⟩), ("B", ⟨20, false, []⟩)]).2
      (by decide) "B" ⟨20, false, []⟩ (by decide) (by with_unfolding_all decide)
      ⟨"A", 133 / 100, 2⟩ (by with_unfolding_all decide)⟩

/-- C10 (confirmed).  For every locked car box whose integer zone
sizes are nonzero (`cw ≥ 3`, `ch ≥ 2`), the generated zones overlap:
`Driver_Change` intersects `Outside_Front` and `Fueling` intersects
`Inside_Front` under the AABB test, a single person box lying in the
shared region samples two zones busy in the same frame, each busy
zone's frame counter is incremented, and when additionally `cw ≥ 6`
(zone width at least 2), `Driver_Change` also intersects
`Outside_Rear` and `Fueling` also intersects `Inside_Rear`; the
per-zone busy-frame totals are therefore not disjoint and their sum
can exceed the elapsed time. -/
theorem c10_zone_double_count (b : CarBox) (h3 : 3 ≤ b.w) (h2 : 2 ≤ b.h) :
    doubleCountsAt b := by
  obtain ⟨cx, cy, cw, ch⟩ := b
  dsimp only at h3 h2
  rw [doubleCountsAt]
  refine ⟨_, _, _, _, rfl, rfl, rfl, rfl, ?_, ?_, ?_, ?_, ?_⟩
  · unfold zonesIntersect
    dsimp only
    omega
  · unfold zonesIntersect
    dsimp only
    omega
  · refine ⟨⟨((cx + cw / 2 : ℕ) : ℤ), ((cy : ℤ) - ((ch * 5 / 10 : ℕ) : ℤ)),
      ((cx + cw / 2 : ℕ) : ℤ) + 1, ((cy : ℤ) - ((ch * 5 / 10 : ℕ) : ℤ)) + 1⟩, ?_, ?_⟩
    · simp only [busySample, List.any_cons, List.any_nil, Bool.or_false, check_overlap,
        decide_eq_true_eq]
      omega
    · simp only [busySample, List.any_cons, List.any_nil, Bool.or_false, check_overlap,
        decide_eq_true_eq]
      omega
  · intro t st
    rfl
  · intro h6
    dsimp only at h6
    refine ⟨_, _, rfl, rfl, ?_, ?_⟩
    · unfold zonesIntersect
      dsimp only
      omega
    · unfold zonesIntersect
      dsimp only
      omega

/-- C10 witness: the double-counting property at the concrete locked
box `(0, 100, 100, 50)`. -/
theorem c10_zone_double_count_witness :
    (3 ≤ (100 : ℕ) ∧ 2 ≤ (50 : ℕ)) ∧ doubleCountsAt ⟨0, 100, 100, 50⟩ :=
  ⟨⟨by decide, by decide⟩, c10_zone_double_count ⟨0, 100, 100, 50⟩ (by decide) (by decide)⟩

/-- Helper for C3: scanning one more observation is one `calmStep`. -/
theorem calmScan_append (obs : List (Option CarBox)) (o : Option CarBox) :
    calmScan (obs ++ [o]) = calmStep (calmScan obs) o := by
  rw [calmScan, calmScan, List.foldl_append, List.foldl_cons, List.foldl_nil]

/-- Helper for C3: the maximum calm run never decreases as the stream
extends. -/
theorem maxCalm_snoc_le (obs : List (Option CarBox)) (o : Option CarBox) :
    maxCalm obs ≤ maxCalm (obs ++ [o]) := by
  rw [maxCalm, maxCalm, calmScan_append]
  rcases hacc : calmScan obs with ⟨last, calm, mx⟩
  rcases o with _ | b <;> rcases last with _ | l <;>
    simp only [calmStep] <;> first
      | exact le_max_left _ _
      | (split <;> simp [le_max_left])

/-- Helper for C3: a NotFound pre-lock frame only advances the frame
counter. -/
theorem step_prelock_none (fps : ℕ) (s : AnalyzerState) (a : FrameInput)
    (hd : s.car_detected = false) (hc : a.car = none) :
    step fps s a = { s with frame_count := s.frame_count + 1 } := by
  simp only [step, hd, Bool.false_eq_true, if_false, hc]

/-- Helper for C3: the pre-lock invariant.  As long as the input
stream never contains 16 consecutive frames without a disturbing
observation (a found box at `l1dist ≥ 5` from the previous found box),
the analyzer stays unlocked with no zones and no car box, its stored
last position is the scan's last found box, and its stable counter is
bounded by the current calm-run length. -/
theorem prelock_inv (fps : ℕ) (ins : List FrameInput)
    (h : maxCalm (carObs ins) ≤ 15) :
    (run fps ins).car_detected = false ∧
    (run fps ins).zones = [] ∧
    (run fps ins).car_bbox = none ∧
    (run fps ins).last_car_pos = (calmScan (carObs ins)).1 ∧
    (run fps ins).stable_frames ≤ (calmScan (carObs ins)).2.1 := by
  induction ins using List.reverseRecOn with
  | nil => exact ⟨rfl, rfl, rfl, rfl, le_refl 0⟩
  | append_singleton ins a ih =>
      have hcar : carObs (ins ++ [a]) = carObs ins ++ [a.car] := by simp [carObs]
      rw [hcar] at h
      have hmx : maxCalm (carObs ins) ≤ 15 := le_trans (maxCalm_snoc_le _ a.car) h
      obtain ⟨hdet, hzones, hbox, hlast, hstable⟩ := ih hmx
      have hrun : run fps (ins ++ [a]) = step fps (run fps ins) a := by
        rw [run, run, List.foldl_append, List.foldl_cons, List.foldl_nil]
      rw [hrun, hcar, calmScan_append]
      simp only [maxCalm, calmScan_append] at h
      rcases hacc : calmScan (carObs ins) with ⟨last, calm, mx⟩
      rw [hacc] at h hlast hstable
      have hstable2 : (run fps ins).stable_frames ≤ calm := hstable
      have hlast2 : (run fps ins).last_car_pos = last := hlast
      rcases hac : a.car with _ | b
      · rw [step_prelock_none fps (run fps ins) a hdet hac]
        refine ⟨hdet, hzones, hbox, ?_, ?_⟩
        · simp only [calmStep]
          exact hlast2
        · simp only [calmStep]
          omega
      · rw [hac] at h
        rcases hll : last with _ | l
        · rw [hll] at h hlast2
          have hc15 : calm + 1 ≤ 15 := by
            simp only [calmStep] at h
            exact le_trans (le_max_right mx (calm + 1)) h
          have hnolock : ¬ ((run fps ins).stable_frames > 15) := by omega
          have hstep : step fps (run fps ins) a = { run fps ins with
              stable_frames := (run fps ins).stable_frames
              last_car_pos := some b
              frame_count := (run fps ins).frame_count + 1 } := by
            simp only [step, hdet, Bool.false_eq_true, if_false, hac, hlast2]
            rw [if_neg hnolock]
          rw [hstep]
          refine ⟨hdet, hzones, hbox, ?_, ?_⟩
          · simp only [calmStep]
          · simp only [calmStep]
            omega
        · rw [hll] at h hlast2
          by_cases h5 : l1dist b l < 5
          · have hc15 : calm + 1 ≤ 15 := by
              simp only [calmStep] at h
              rw [if_pos h5] at h
              exact le_trans (le_max_right mx (calm + 1)) h
            have hnolock : ¬ ((run fps ins).stable_frames + 1 > 15) := by omega
            have hstep : step fps (run fps ins) a = { run fps ins with
                stable_frames := (run fps ins).stable_frames + 1
                last_car_pos := some b
                frame_count := (run fps ins).frame_count + 1 } := by
              simp only [step, hdet, Bool.false_eq_true, if_false, hac, hlast2, if_pos h5]
              rw [if_neg hnolock]
            rw [hstep]
            refine ⟨hdet, hzones, hbox, ?_, ?_⟩
            · simp only [calmStep, if_pos h5]
            · simp only [calmStep, if_pos h5]
              omega
          · have hstep : step fps (run fps ins) a = { run fps ins with
                stable_frames := 0
                last_car_pos := some b
                frame_count := (run fps ins).frame_count + 1 } := by
              simp only [step, hdet, Bool.false_eq_true, if_false, hac, hlast2, if_neg h5]
              rw [if_neg (by omega : ¬ ((0 : ℕ) > 15))]
            rw [hstep]
            refine ⟨hdet, hzones, hbox, ?_, ?_⟩
            · simp only [calmStep, if_neg h5]
            · simp only [calmStep, if_neg h5]
              omega

/-- C3 (confirmed).  If the candidate-pose displacement never stays
below the 5-pixel movement threshold for the required dwell stretch —
formally, the stream never contains a disturbance-free run of more
than 15 consecutive frames — the Stability Gate never locks: the
car-detected flag stays false and no zones are ever generated. -/
theorem c3_no_premature_lock (fps : ℕ) (ins : List FrameInput)
    (h : maxCalm (carObs ins) ≤ 15) :
    (run fps ins).car_detected = false ∧ (run fps ins).zones = [] :=
  ⟨(prelock_inv fps ins h).1, (prelock_inv fps ins h).2.1⟩

/-- C3 witness: 15 found frames at a fixed position (14 consecutive
stable increments) followed by one disturbed frame never lock: the
car-detected flag stays false, no zones exist, and the counter is
reset to 0. -/
theorem c3_no_premature_lock_witness :
    maxCalm (carObs demoIns) ≤ 15 ∧
    (run 30 demoIns).car_detected = false ∧
    (run 30 demoIns).zones = [] ∧
    (run 30 demoIns).stable_frames = 0 :=
  ⟨by decide,
   (c3_no_premature_lock 30 demoIns (by decide)).1,
   (c3_no_premature_lock 30 demoIns (by decide)).2,
   by decide⟩

end PitStop
